import Mathlib

set_option maxRecDepth 4000

/-!
Verification development for the LightLinks TCP proxy (`proxy.py`).

The proxy relays bytes between a client and one upstream server.  The
request-direction forwarder (`forward_data`) inspects chunks that contain
the byte sequence `HTTP`: it decodes the chunk, takes the first line as the
HTTP request line, splits it into whitespace-separated tokens, counts the
request target in a shared counter, and applies the optional block / inject
policies.  The session manager (`handle_client`) opens the upstream
connection, starts the two forwarders and closes both sockets exactly once,
guarded by a shared pair of closed-flags.  The signal handler
(`handle_exit`) drives the graceful shutdown.

Chunks are modelled as `String`; a chunk stands for the received byte
string.  `data.decode(errors='ignore')` is the identity on the ASCII chunks
all the properties below concern, so the decode step is not modelled
separately.
-/

namespace LightLinks

/-- Python whitespace predicate, as used by `str.split()` and `str.strip()`. -/
def isPySpace (c : Char) : Bool :=
  c = ' ' || c = '\t' || c = '\n' || c = '\r' || c = '\x0b' || c = '\x0c' ||
  c = '\x1c' || c = '\x1d' || c = '\x1e' || c = '\x1f' || c = '\x85' || c = '\xa0'

/-- Python line-break characters for `str.splitlines` (the pair CRLF is
handled separately as a single break). -/
def isLineBreak (c : Char) : Bool :=
  c = '\n' || c = '\r' || c = '\x0b' || c = '\x0c' ||
  c = '\x1c' || c = '\x1d' || c = '\x1e' || c = '\x85' ||
  c = '\u2028' || c = '\u2029'

/-- Worker for `splitlines`: `acc` holds the current line reversed; the
pair CRLF counts as a single break, a terminal break opens no new line. -/
def splitlinesAux : List Char → List Char → List (List Char)
  | [], acc => [acc.reverse]
  | [c], acc =>
      if isLineBreak c then [acc.reverse] else [(c :: acc).reverse]
  | c :: d :: rest, acc =>
      if c = '\r' ∧ d = '\n' then
        acc.reverse :: (match rest with | [] => [] | _ :: _ => splitlinesAux rest [])
      else if isLineBreak c then
        acc.reverse :: splitlinesAux (d :: rest) []
      else splitlinesAux (d :: rest) (c :: acc)

/-- Model of Python `str.splitlines()`. -/
def splitlines (s : String) : List String :=
  if s.toList.isEmpty then []
  else (splitlinesAux s.toList []).map (fun l => String.mk l)

/-- Worker for `splitWs`: `acc` holds the current token reversed. -/
def splitWsAux : List Char → List Char → List (List Char)
  | [], acc => if acc.isEmpty then [] else [acc.reverse]
  | c :: rest, acc =>
      if isPySpace c then
        if acc.isEmpty then splitWsAux rest []
        else acc.reverse :: splitWsAux rest []
      else splitWsAux rest (c :: acc)

/-- Model of Python `str.split()` with no arguments: split on runs of
whitespace, dropping empty tokens. -/
def splitWs (s : String) : List String :=
  (splitWsAux s.toList []).map (fun l => String.mk l)

/-- Model of Python `str.strip()`. -/
def pyStrip (s : String) : String :=
  String.mk (((s.toList.dropWhile isPySpace).reverse.dropWhile isPySpace).reverse)

/-- Tests whether the first list starts the second one. -/
def listLeads : List Char → List Char → Bool
  | [], _ => true
  | _ :: _, [] => false
  | a :: as, b :: bs => a == b && listLeads as bs

/-- Worker for `containsSub`. -/
def containsSubAux (n : List Char) : List Char → Bool
  | [] => n.isEmpty
  | c :: rest => listLeads n (c :: rest) || containsSubAux n rest

/-- Model of Python `needle in hay` on strings. -/
def containsSub (needle hay : String) : Bool :=
  containsSubAux needle.toList hay.toList

/-- Splits a character list at the first colon; models
`s.split(":", 1)` when a colon is present (the colon itself is dropped). -/
def breakAtColon : List Char → List Char × List Char
  | [] => ([], [])
  | c :: rest =>
      if c = ':' then ([], rest)
      else
        let p := breakAtColon rest
        (c :: p.1, p.2)

/-- Model of `"\r\n".join(lines)`. -/
def joinCRLF (lines : List String) : String :=
  String.intercalate "\r\n" lines

/-- The blank-line terminator appended after reassembly. -/
def crlfCrlf : String := "\r\n\r\n"

/-- Direction tag of a forwarder: `Request` is client→upstream, `Response`
is upstream→client. -/
inductive Direction
  | Request
  | Response
deriving DecidableEq

/-- Observable effect of handling one received chunk in `forward_data`. -/
inductive FwdEffect
  /-- the chunk (possibly modified) is sent to `dest` and the loop continues -/
  | forwardTo (out : String)
  /-- block policy: `resp` is sent back to `src`, both sockets are closed,
  both closed-flags are set, the forwarder returns -/
  | blockAndClose (resp : String)
  /-- an uncaught exception (only the unreachable `lines[0]` IndexError):
  nothing is forwarded and the forwarder loop breaks -/
  | halt
deriving DecidableEq

/-- Result of the per-chunk inspection: the effect, the URL added to the
statistics counter (if any), and which warnings were logged. -/
structure ChunkResult where
  effect : FwdEffect
  counted : Option String
  parseWarn : Bool
  injectWarn : Bool
deriving DecidableEq

/-- Body of the synthesized 403 response (`forward_data`, block branch). -/
def body403 : String :=
  "This request was blocked by the proxy. Access to this URL is restricted.\r\n"

/-- The full 403 response; its Content-Length is computed from the body,
exactly as the f-string in the source does. -/
def response403 : String :=
  "HTTP/1.1 403 Forbidden\r\nContent-Type: text/plain\r\nContent-Length: " ++
    toString body403.length ++ "\r\n\r\n" ++ body403

/-- Header line built from the configured `inject_header` string:
`key, value = ih.split(":", 1)`, `value = value.strip()`, and the inserted
line is `f"{key}: {value}\r\n".strip()`. -/
def injectedHeaderLine (ih : String) : String :=
  let p := breakAtColon ih.toList
  pyStrip (String.mk p.1 ++ ": " ++ pyStrip (String.mk p.2))

/-- Truthiness-and-membership test `block_url and block_url in url`. -/
def blockTriggers (blockUrl : Option String) (url : String) : Bool :=
  match blockUrl with
  | none => false
  | some b => if b = "" then false else containsSub b url

/-- The source's condition for the injection to actually happen:
`len(lines) > 1 and ":" in lines[1]`, expressed on the lines after the
request line. -/
def hasHeaderAfterRequestLine (restLines : List String) : Bool :=
  match restLines with
  | [] => false
  | l1 :: _ => containsSub ":" l1

/-- Per-chunk behaviour of `forward_data` in the Request direction, for a
chunk `data`, mirroring the `if direction == 'Request' and b"HTTP" in data`
block: decode/splitlines, 3-token request-line parse (else a parse warning
and the raw chunk is forwarded), counter update, block policy, header
injection and CRLF reassembly.  An `inject_header` without a colon raises
`ValueError` at the unpack, which the same handler catches as a parse
warning, after the counter was already updated. -/
def processRequestChunk (blockUrl injectHeader : Option String) (data : String) :
    ChunkResult :=
  if containsSub "HTTP" data then
    match splitlines data with
    | [] =>
        { effect := .halt, counted := none, parseWarn := false, injectWarn := false }
    | requestLine :: restLines =>
      match splitWs requestLine with
      | [_, url, _] =>
        if blockTriggers blockUrl url then
          { effect := .blockAndClose response403, counted := some url,
            parseWarn := false, injectWarn := false }
        else
          match injectHeader with
          | some ih =>
            if ih = "" then
              { effect := .forwardTo data, counted := some url,
                parseWarn := false, injectWarn := false }
            else if containsSub ":" ih then
              if hasHeaderAfterRequestLine restLines then
                { effect := .forwardTo
                    (joinCRLF (requestLine :: injectedHeaderLine ih :: restLines) ++ crlfCrlf),
                  counted := some url, parseWarn := false, injectWarn := false }
              else
                { effect := .forwardTo (joinCRLF (requestLine :: restLines) ++ crlfCrlf),
                  counted := some url, parseWarn := false, injectWarn := true }
            else
              { effect := .forwardTo data, counted := some url,
                parseWarn := true, injectWarn := false }
          | none =>
              { effect := .forwardTo data, counted := some url,
                parseWarn := false, injectWarn := false }
      | _ =>
          { effect := .forwardTo data, counted := none,
            parseWarn := true, injectWarn := false }
  else
    { effect := .forwardTo data, counted := none, parseWarn := false, injectWarn := false }

/-- Per-chunk behaviour of `forward_data` for either direction: the whole
inspection block is guarded by `direction == 'Request'`, so Response-side
chunks are always forwarded as received. -/
def processChunk (dir : Direction) (blockUrl injectHeader : Option String)
    (data : String) : ChunkResult :=
  match dir with
  | .Request => processRequestChunk blockUrl injectHeader data
  | .Response =>
      { effect := .forwardTo data, counted := none, parseWarn := false, injectWarn := false }

/-- The pair of closed-flags shared by the two forwarders of one session
(`socket_closed_flags` in the source). -/
structure SessionFlags where
  clientClosed : Bool
  serverClosed : Bool
deriving DecidableEq

/-- Flag update performed by a chunk effect: the block branch sets both
flags; forwarding changes nothing. -/
def applyEffectFlags (e : FwdEffect) (f : SessionFlags) : SessionFlags :=
  match e with
  | .blockAndClose _ => { clientClosed := true, serverClosed := true }
  | _ => f

/-- Bytes delivered to the destination socket by a chunk effect. -/
def sentToDest (e : FwdEffect) : Option String :=
  match e with
  | .forwardTo s => some s
  | _ => none

/-- Bytes sent back to the source socket by a chunk effect. -/
def sentBackToSrc (e : FwdEffect) : Option String :=
  match e with
  | .blockAndClose r => some r
  | _ => none

/-- Body of the synthesized 502 response (`handle_client`, gaierror branch). -/
def body502 : String :=
  "The proxy could not resolve or connect to the target server. Please check the server address.\r\n"

/-- The full 502 response exactly as the source literal writes it, with its
hard-coded `Content-Length: 77` header. -/
def response502 : String :=
  "HTTP/1.1 502 Bad Gateway\r\nContent-Type: text/plain\r\nContent-Length: 77\r\n\r\n" ++
    body502

/-- Outcome of `server_socket.connect((target_host, target_port))`. -/
inductive ConnectOutcome
  /-- the TCP connection is established -/
  | ok
  /-- name resolution fails: `socket.gaierror` is raised, which the inner
  `except socket.gaierror` clause catches -/
  | dnsFailure
  /-- the connection is refused (or another non-gaierror `OSError`); the
  exception is not caught by the inner clause and propagates to the outer
  `except Exception` handler of `handle_client` -/
  | refused
deriving DecidableEq

/-- Observable result of the connect phase of `handle_client`: what is sent
to the client, whether the two forwarder threads are started, and the
closed-flags state when the phase ends. -/
structure ConnectResult where
  sentToClient : Option String
  forwardersStarted : Bool
  flags : SessionFlags
deriving DecidableEq

/-- Connect phase of `handle_client`: only `socket.gaierror` triggers the
502 branch (send `response502`, close the client socket, set the client
closed-flag, return).  The `refused` outcome reaches the generic
`except Exception` handler, which only logs, so nothing is sent to the
client and no forwarders start; both flags are still false when the
`finally` cleanup begins. -/
def connectPhase : ConnectOutcome → ConnectResult
  | .ok =>
      { sentToClient := none, forwardersStarted := true,
        flags := { clientClosed := false, serverClosed := false } }
  | .dnsFailure =>
      { sentToClient := some response502, forwardersStarted := false,
        flags := { clientClosed := true, serverClosed := false } }
  | .refused =>
      { sentToClient := none, forwardersStarted := false,
        flags := { clientClosed := false, serverClosed := false } }

/-- Number of close operations issued against each of the two sockets of a
session.  A "close operation" is either the `src.close(); dest.close()`
pair of the block branch, the `client_socket.close()` of the 502 branch, or
one orderly shutdown-then-close attempt of the `finally` cleanup. -/
structure CloseCounts where
  client : Nat
  server : Nat
deriving DecidableEq

/-- Client half of the `finally` cleanup of `handle_client`: close only if
the client closed-flag is not set, then set it. -/
def cleanupClient (f : SessionFlags) (cc : CloseCounts) : SessionFlags × CloseCounts :=
  if f.clientClosed then (f, cc)
  else ({ f with clientClosed := true }, { cc with client := cc.client + 1 })

/-- Server half of the `finally` cleanup of `handle_client`: close only if
the server socket exists and its closed-flag is not set, then set it. -/
def cleanupServer (f : SessionFlags) (cc : CloseCounts) : SessionFlags × CloseCounts :=
  if f.serverClosed then (f, cc)
  else ({ f with serverClosed := true }, { cc with server := cc.server + 1 })

/-- The whole `finally` cleanup: client first, then server. -/
def cleanupBoth (f : SessionFlags) (cc : CloseCounts) : SessionFlags × CloseCounts :=
  let p := cleanupClient f cc
  cleanupServer p.1 p.2

/-- Control-flow paths through one session of `handle_client`, as far as
socket closing is concerned.  The forwarders themselves never close a
socket except in the block branch, and the two forwarders have been joined
before the cleanup runs, so the close-relevant behaviour is sequential. -/
inductive SessionPath
  /-- `socket.gaierror` on connect: the 502 branch closes the client socket
  and sets its flag before the `finally` cleanup runs -/
  | connectFailDns
  /-- any other connect error: the outer `except Exception` handler only
  logs; the `finally` cleanup runs with both flags false -/
  | connectFailOther
  /-- both forwarders ran and were joined; `blockFired` tells whether the
  Request forwarder executed the block branch (closing both sockets and
  setting both flags) before terminating -/
  | normal (blockFired : Bool)
deriving DecidableEq

/-- Closing behaviour of one whole session: the closes and flag updates
performed on the chosen path, followed by the `finally` cleanup. -/
def sessionRun (p : SessionPath) : SessionFlags × CloseCounts :=
  let f0 : SessionFlags := { clientClosed := false, serverClosed := false }
  let cc0 : CloseCounts := { client := 0, server := 0 }
  match p with
  | .connectFailDns =>
      cleanupBoth { f0 with clientClosed := true } { cc0 with client := 1 }
  | .connectFailOther =>
      cleanupBoth f0 cc0
  | .normal blockFired =>
      if blockFired then
        cleanupBoth { clientClosed := true, serverClosed := true } { client := 1, server := 1 }
      else
        cleanupBoth f0 cc0

/-- Stats-aggregator state: the Python `Counter` is a dict keyed by URL in
first-insertion order; each entry carries its count. -/
abbrev CounterState := List (String × Nat)

/-- Current count of a URL (`Counter` returns 0 for a missing key). -/
def countOf : CounterState → String → Nat
  | [], _ => 0
  | e :: rest, u => if e.1 = u then e.2 else countOf rest u

/-- Model of `url_counter[url] += 1`: bump the existing entry, or append a
new entry with count 1 at the end (dict insertion order). -/
def increment : CounterState → String → CounterState
  | [], u => [(u, 1)]
  | e :: rest, u =>
      if e.1 = u then (e.1, e.2 + 1) :: rest else e :: increment rest u

/-- Inserts an entry into a count-descending list, after every entry with a
strictly greater count and before the first entry with a smaller-or-equal
count; on ties the earlier element therefore stays first. -/
def insertDesc (x : String × Nat) : List (String × Nat) → List (String × Nat)
  | [] => [x]
  | y :: ys => if y.2 ≤ x.2 then x :: y :: ys else y :: insertDesc x ys

/-- Stable sort by count descending, modelling the order produced by
`Counter.most_common` (documented as `sorted(items, key=count,
reverse=True)`, which is stable with respect to insertion order). -/
def sortDesc : CounterState → List (String × Nat)
  | [] => []
  | x :: rest => insertDesc x (sortDesc rest)

/-- Model of `url_counter.most_common(n)`. -/
def topN (n : Nat) (s : CounterState) : List (String × Nat) :=
  (sortDesc s).take n

/-- Observable steps of the shutdown handler. -/
inductive ShutEvent
  /-- `shutting_down = True` -/
  | setFlag
  /-- closing the listening socket (claimed by the spec; the source has no
  such step) -/
  | closeListener
  /-- the `thread.join()` loop over all non-main threads -/
  | joinThreads
  /-- logging the top-10 snapshot and writing `logs/top_urls.log` -/
  | emitReport
  /-- `sys.exit(0)` -/
  | exitProc
deriving DecidableEq

/-- Ordered effects of one full run of `handle_exit` when the shutdown flag
is not yet set, exactly as the source performs them: set the flag, emit the
top-10 report, join the threads, exit. -/
def handleExitEvents : List ShutEvent :=
  [.setFlag, .emitReport, .joinThreads, .exitProc]

/-- The order the specification claims: set the flag, close the listener,
join all sessions, emit the report, exit. -/
def claimedShutdownOrder : List ShutEvent :=
  [.setFlag, .closeListener, .joinThreads, .emitReport, .exitProc]

/-- Process state seen by the shutdown handler: the global flag and the
accumulated observable effects. -/
structure ShutState where
  shuttingDown : Bool
  events : List ShutEvent
deriving DecidableEq

/-- Model of `handle_exit`: a second invocation while `shutting_down` is
already true returns immediately (`if shutting_down: return`); otherwise
the full effect sequence runs. -/
def handleExit (s : ShutState) : ShutState :=
  if s.shuttingDown then s
  else { shuttingDown := true, events := s.events ++ handleExitEvents }

/-! Helper lemmas about the statistics counter and the ranked snapshot. -/

/-- The count-descending relation the snapshot is sorted by. -/
def countGE (a b : String × Nat) : Prop := b.2 ≤ a.2

lemma countOf_increment_self (s : CounterState) (u : String) :
    countOf (increment s u) u = countOf s u + 1 := by
  induction s with
  | nil => simp [increment, countOf]
  | cons e rest ih =>
    by_cases h : e.1 = u
    · simp [increment, countOf, h]
    · simp [increment, countOf, h, ih]

lemma countOf_increment_ne (s : CounterState) (u v : String) (h : v ≠ u) :
    countOf (increment s u) v = countOf s v := by
  have h' : u ≠ v := fun he => h he.symm
  induction s with
  | nil => simp [increment, countOf, h']
  | cons e rest ih =>
    by_cases he : e.1 = u
    · subst he
      simp [increment, countOf, h']
    · by_cases hv : e.1 = v <;> simp [increment, countOf, he, hv, ih, h]

lemma countOf_le_increment (s : CounterState) (u v : String) :
    countOf s v ≤ countOf (increment s u) v := by
  by_cases h : v = u
  · subst h; rw [countOf_increment_self]; exact Nat.le_succ _
  · rw [countOf_increment_ne s u v h]

lemma increment_keys (s : CounterState) (u : String) :
    (increment s u).map Prod.fst = s.map Prod.fst ∨
      (increment s u).map Prod.fst = s.map Prod.fst ++ [u] := by
  induction s with
  | nil => right; simp [increment]
  | cons e rest ih =>
    by_cases h : e.1 = u
    · left; simp [increment, h]
    · rcases ih with ih | ih
      · left; simp [increment, h, ih]
      · right; simp [increment, h, ih]

lemma insertDesc_perm (x : String × Nat) (l : List (String × Nat)) :
    List.Perm (insertDesc x l) (x :: l) := by
  induction l with
  | nil => simp [insertDesc]
  | cons y ys ih =>
    by_cases h : y.2 ≤ x.2
    · simp [insertDesc, h]
    · simp only [insertDesc, if_neg h]
      exact List.Perm.trans (List.Perm.cons y ih) (List.Perm.swap x y ys)

lemma sortDesc_perm (s : CounterState) : List.Perm (sortDesc s) s := by
  induction s with
  | nil => simp [sortDesc]
  | cons x rest ih =>
    exact List.Perm.trans (insertDesc_perm x (sortDesc rest)) (List.Perm.cons x ih)

lemma insertDesc_pairwise (x : String × Nat) (l : List (String × Nat))
    (h : List.Pairwise countGE l) : List.Pairwise countGE (insertDesc x l) := by
  induction l with
  | nil => simp [insertDesc, countGE]
  | cons y ys ih =>
    rcases List.pairwise_cons.mp h with ⟨hy, hys⟩
    by_cases hyx : y.2 ≤ x.2
    · simp only [insertDesc, if_pos hyx]
      refine List.pairwise_cons.mpr ⟨?_, h⟩
      intro z hz
      rcases List.mem_cons.mp hz with rfl | hz
      · exact hyx
      · exact Nat.le_trans (hy z hz) hyx
    · simp only [insertDesc, if_neg hyx]
      refine List.pairwise_cons.mpr ⟨?_, ih hys⟩
      intro z hz
      have hz' := (insertDesc_perm x ys).mem_iff.mp hz
      rcases List.mem_cons.mp hz' with rfl | hz'
      · exact Nat.le_of_lt (Nat.lt_of_not_le hyx)
      · exact hy z hz'

lemma sortDesc_pairwise (s : CounterState) : List.Pairwise countGE (sortDesc s) := by
  induction s with
  | nil => simp [sortDesc]
  | cons x rest ih => exact insertDesc_pairwise x (sortDesc rest) ih

lemma insertDesc_filter (x : String × Nat) (l : List (String × Nat)) (c : Nat) :
    (insertDesc x l).filter (fun e => e.2 == c) =
      if x.2 = c then x :: l.filter (fun e => e.2 == c)
      else l.filter (fun e => e.2 == c) := by
  induction l with
  | nil => by_cases h : x.2 = c <;> simp [insertDesc, List.filter_cons, h]
  | cons y ys ih =>
    by_cases hyx : y.2 ≤ x.2
    · rw [insertDesc, if_pos hyx]
      by_cases hx : x.2 = c <;> simp [List.filter_cons, hx]
    · rw [insertDesc, if_neg hyx]
      by_cases hy : y.2 = c
      · have hx : ¬ x.2 = c := fun hx => hyx (Nat.le_of_eq (by rw [hy, hx]))
        simp [List.filter_cons, hy, hx, ih]
      · by_cases hx : x.2 = c <;> simp [List.filter_cons, hy, hx, ih]

lemma sortDesc_filter (s : CounterState) (c : Nat) :
    (sortDesc s).filter (fun e => e.2 == c) = s.filter (fun e => e.2 == c) := by
  induction s with
  | nil => simp [sortDesc]
  | cons x rest ih =>
    rw [sortDesc, insertDesc_filter]
    by_cases hx : x.2 = c <;> simp [List.filter_cons, hx, ih]

/-! Helper lemma about `splitlines` of a chunk containing the marker. -/

lemma splitlinesAux_ne_nil (l acc : List Char) : splitlinesAux l acc ≠ [] := by
  induction l generalizing acc with
  | nil => simp [splitlinesAux]
  | cons c rest ih =>
    cases rest with
    | nil =>
      by_cases hb : isLineBreak c = true <;> simp [splitlinesAux, hb]
    | cons d rest' =>
      by_cases hp : c = '\r' ∧ d = '\n'
      · simp [splitlinesAux, hp]
      · by_cases hb : isLineBreak c = true <;> simp [splitlinesAux, hp, hb, ih]

lemma toList_ne_nil_of_marker {data : String}
    (h : containsSub "HTTP" data = true) : data.toList ≠ [] := by
  intro he
  rw [containsSub, he] at h
  exact absurd h (by decide)

lemma splitlines_ne_nil_of_marker {data : String}
    (h : containsSub "HTTP" data = true) : splitlines data ≠ [] := by
  have ht := toList_ne_nil_of_marker h
  intro hsp
  rw [splitlines, if_neg (by simpa [List.isEmpty_iff] using ht)] at hsp
  exact splitlinesAux_ne_nil data.toList [] (by simpa using hsp)

lemma counted_of_parse (bu ihdr : Option String) (data reqLine : String)
    (restLines : List String) (m u v : String)
    (hm : containsSub "HTTP" data = true)
    (hl : splitlines data = reqLine :: restLines)
    (hw : splitWs reqLine = [m, u, v]) :
    (processRequestChunk bu ihdr data).counted = some u := by
  rw [processRequestChunk, if_pos hm]
  simp only [hl, hw]
  by_cases hb : blockTriggers bu u = true
  · simp [hb]
  · rw [Bool.not_eq_true] at hb
    cases ihdr with
    | none => simp [hb]
    | some s =>
      by_cases hs0 : s = ""
      · simp [hb, hs0]
      · by_cases hsc : containsSub ":" s = true
        · by_cases hh : hasHeaderAfterRequestLine restLines = true <;>
            simp [hb, hs0, hsc, hh]
        · simp [hb, hs0, hsc]

/--
Claim C5: for every session, each of the two underlying sockets is closed
exactly once by the time the session's cleanup completes, regardless of
which forwarder, error path, or the block policy triggers the close first;
the closed-flags guard the cleanup so no socket is closed twice and no
socket is leaked.  `sessionRun` covers every close-relevant control path
of `handle_client` (gaierror 502 branch, other connect failure, normal
termination with or without the block branch of `forward_data`); on each,
both closed-flags end true and each socket receives exactly one close
operation.
-/
theorem c5_sockets_closed_exactly_once (p : SessionPath) :
    sessionRun p =
      ({ clientClosed := true, serverClosed := true }, { client := 1, server := 1 }) := by
  cases p with
  | connectFailDns => rfl
  | connectFailOther => rfl
  | normal blockFired => cases blockFired <;> rfl

/--
Claim C7 (code bug evidence): on its first invocation, `handle_exit` never
closes the listening socket, and it emits the top-10 report before joining
the outstanding session threads, contradicting both the claimed order
(set flag; close listener; join all sessions; emit report; exit) and the
function's own docstring.
-/
theorem c7_shutdown_order_bug :
    ShutEvent.closeListener ∉ handleExitEvents ∧
    handleExitEvents ≠ claimedShutdownOrder ∧
    handleExitEvents.indexOf ShutEvent.emitReport <
      handleExitEvents.indexOf ShutEvent.joinThreads := by
  decide

/--
Claim C8: the shutdown trigger is idempotent — invoking `handle_exit` a
second time while shutdown is already in progress is a no-op (`if
shutting_down: return`), so the state (and hence the observable event
trace: one report write, one exit) is the same as after a single
invocation.
-/
theorem c8_shutdown_idempotent (s : ShutState) :
    handleExit (handleExit s) = handleExit s := by
  by_cases h : s.shuttingDown <;> simp [handleExit, h]

/--
Claim C4 (code bug evidence): a refused upstream connection is not a
`socket.gaierror`, so it bypasses the 502 branch of `handle_client`
entirely — nothing is sent to the client and no forwarders start, against
the claim that every connect failure (including connection refused) yields
a 502.  Moreover even the DNS-failure 502 that is sent hard-codes
`Content-Length: 77` while its fixed body is 95 bytes long, so the claimed
"Content-Length matching the fixed explanatory body" fails there too.
-/
theorem c4_upstream_failure_bug :
    (connectPhase .refused).sentToClient = none ∧
    (connectPhase .refused).forwardersStarted = false ∧
    (connectPhase .dnsFailure).sentToClient = some response502 ∧
    body502.length = 95 ∧
    containsSub "Content-Length: 77" response502 = true ∧
    containsSub ("Content-Length: " ++ toString body502.length) response502 = false := by
  refine ⟨rfl, rfl, rfl, by decide, by decide, by decide⟩

/--
Claim C2: if the block substring is configured (non-empty) and occurs in
the parsed request target, the forwarder sends the client (the `src` side)
the 403 Forbidden response — text/plain, with a Content-Length computed
from the fixed body — closes both sockets, sets both closed-flags, and
terminates without forwarding the chunk, so nothing reaches the upstream.
-/
theorem c2_block_policy (b : String) (ihdr : Option String) (data reqLine : String)
    (restLines : List String) (m u v : String)
    (hb : b ≠ "")
    (hm : containsSub "HTTP" data = true)
    (hl : splitlines data = reqLine :: restLines)
    (hw : splitWs reqLine = [m, u, v])
    (hblock : containsSub b u = true) :
    processRequestChunk (some b) ihdr data =
      { effect := .blockAndClose response403, counted := some u,
        parseWarn := false, injectWarn := false } ∧
    sentToDest (processRequestChunk (some b) ihdr data).effect = none ∧
    sentBackToSrc (processRequestChunk (some b) ihdr data).effect = some response403 ∧
    (∀ f, applyEffectFlags (processRequestChunk (some b) ihdr data).effect f =
      { clientClosed := true, serverClosed := true }) ∧
    response403 =
      "HTTP/1.1 403 Forbidden\r\nContent-Type: text/plain\r\nContent-Length: " ++
        toString body403.length ++ "\r\n\r\n" ++ body403 := by
  have hres : processRequestChunk (some b) ihdr data =
      { effect := .blockAndClose response403, counted := some u,
        parseWarn := false, injectWarn := false } := by
    rw [processRequestChunk, if_pos hm]
    simp only [hl, hw]
    simp [blockTriggers, hb, hblock]
  exact ⟨hres, by rw [hres]; rfl, by rw [hres]; rfl, fun f => by rw [hres]; rfl, rfl⟩

/-- Witness for C2 at the spec's Scenario B input: block substring
`/admin`, request line `GET /admin/panel HTTP/1.1`. -/
theorem c2_block_policy_witness :
    processRequestChunk (some "/admin") none "GET /admin/panel HTTP/1.1\r\nHost: x\r\n\r\n" =
      { effect := .blockAndClose response403, counted := some "/admin/panel",
        parseWarn := false, injectWarn := false } :=
  (c2_block_policy "/admin" none "GET /admin/panel HTTP/1.1\r\nHost: x\r\n\r\n"
    "GET /admin/panel HTTP/1.1" ["Host: x", ""] "GET" "/admin/panel" "HTTP/1.1"
    (by decide) (by decide) (by decide) (by decide) (by decide)).1

/--
Claim C9: a Request-direction chunk that contains the HTTP marker but
whose first line does not split into exactly three whitespace-separated
tokens hits the `ValueError` handler: a parse warning is logged, the raw
chunk is forwarded to the destination unmodified, the URL counter is not
updated, and the forwarder continues (the condition is never fatal — the
result is an ordinary `forwardTo`, not a `halt`).
-/
theorem c9_malformed_request_line (bu ihdr : Option String) (data : String)
    (hm : containsSub "HTTP" data = true)
    (hp : (splitWs ((splitlines data).headD "")).length ≠ 3) :
    processRequestChunk bu ihdr data =
      { effect := .forwardTo data, counted := none,
        parseWarn := true, injectWarn := false } := by
  obtain ⟨reqLine, restLines, hl⟩ :=
    List.exists_cons_of_ne_nil (splitlines_ne_nil_of_marker hm)
  rw [hl] at hp
  simp only [List.headD_cons] at hp
  rw [processRequestChunk, if_pos hm]
  simp only [hl]
  rcases hws : splitWs reqLine with _ | ⟨a, _ | ⟨b, _ | ⟨c, _ | ⟨d, tl⟩⟩⟩⟩
  · simp
  · simp
  · simp
  · exact absurd (by rw [hws]; rfl) hp
  · simp

/-- Witness for C9: the chunk `HTTP\r\n` contains the marker but its first
line has a single token. -/
theorem c9_malformed_request_line_witness :
    processRequestChunk (some "/admin") (some "X: y") "HTTP\r\n" =
      { effect := .forwardTo "HTTP\r\n", counted := none,
        parseWarn := true, injectWarn := false } :=
  c9_malformed_request_line (some "/admin") (some "X: y") "HTTP\r\n"
    (by decide) (by decide)

/--
Claim C6: for every successfully parsed request line, the counter entry
for the exact (verbatim) target string grows by exactly 1 while every
other entry is unchanged and no entry ever decreases; key order stays
first-insertion order; and the top-N snapshot takes the first `n` entries
of a stable count-descending sort — a permutation of the counter, sorted
by count descending (`countGE`), whose per-count groups keep the counter's
first-insertion order (the filter conjunct).  The last conjunct ties the
counted string to the parse: it is the verbatim second token of the
request line.
-/
theorem c6_counter_and_topn (s : CounterState) (u : String) (n : Nat) :
    countOf (increment s u) u = countOf s u + 1 ∧
    (∀ v, v ≠ u → countOf (increment s u) v = countOf s v) ∧
    (∀ v, countOf s v ≤ countOf (increment s u) v) ∧
    ((increment s u).map Prod.fst = s.map Prod.fst ∨
      (increment s u).map Prod.fst = s.map Prod.fst ++ [u]) ∧
    topN n s = (sortDesc s).take n ∧
    (topN n s).length ≤ n ∧
    List.Pairwise countGE (topN n s) ∧
    List.Perm (sortDesc s) s ∧
    (∀ c, (sortDesc s).filter (fun e => e.2 == c) = s.filter (fun e => e.2 == c)) ∧
    (∀ (bu ihdr : Option String) (data reqLine : String) (restLines : List String)
        (m v : String),
      containsSub "HTTP" data = true →
      splitlines data = reqLine :: restLines →
      splitWs reqLine = [m, u, v] →
      (processRequestChunk bu ihdr data).counted = some u) :=
  ⟨countOf_increment_self s u,
   fun v hv => countOf_increment_ne s u v hv,
   fun v => countOf_le_increment s u v,
   increment_keys s u,
   rfl,
   List.length_take_le n (sortDesc s),
   (sortDesc_pairwise s).sublist (List.take_sublist n (sortDesc s)),
   sortDesc_perm s,
   sortDesc_filter s,
   fun bu ihdr data reqLine restLines m v hm hl hw =>
     counted_of_parse bu ihdr data reqLine restLines m u v hm hl hw⟩

/-- Witness for C6 at concrete inputs: incrementing `/b` into a counter
holding `/index.html` gives both entries count 1, and the chunk
`GET /b HTTP/1.1\r\nHost: x\r\n\r\n` counts exactly the target `/b`. -/
theorem c6_counter_and_topn_witness :
    countOf (increment [("/index.html", 1)] "/b") "/b" = 1 ∧
    countOf (increment [("/index.html", 1)] "/b") "/index.html" = 1 ∧
    (processRequestChunk none none "GET /b HTTP/1.1\r\nHost: x\r\n\r\n").counted =
      some "/b" := by
  have h := c6_counter_and_topn [("/index.html", 1)] "/b" 10
  refine ⟨?_, ?_, ?_⟩
  · rw [h.1]; decide
  · rw [h.2.1 "/index.html" (by decide)]; decide
  · exact h.2.2.2.2.2.2.2.2.2 none none "GET /b HTTP/1.1\r\nHost: x\r\n\r\n"
      "GET /b HTTP/1.1" ["Host: x", ""] "GET" "HTTP/1.1"
      (by decide) (by decide) (by decide)

/--
Claim C1: forwarding is byte-preserving in both directions except for the
inject-policy rewrite: Response-direction chunks are always forwarded as
received; Request-direction chunks without the HTTP marker are forwarded
as received; and whenever a forwarded chunk differs from the received one,
the direction was Request, the chunk contained the marker, its request
line split into exactly three tokens, and a non-empty inject header
containing a colon was configured (the policy-driven mutation).
-/
theorem c1_forwarding_byte_preserving (dir : Direction) (bu ihdr : Option String)
    (data : String) :
    processChunk .Response bu ihdr data =
      { effect := .forwardTo data, counted := none,
        parseWarn := false, injectWarn := false } ∧
    (containsSub "HTTP" data = false →
      processChunk .Request bu ihdr data =
        { effect := .forwardTo data, counted := none,
          parseWarn := false, injectWarn := false }) ∧
    (∀ out, (processChunk dir bu ihdr data).effect = .forwardTo out → out ≠ data →
      dir = .Request ∧ containsSub "HTTP" data = true ∧
      (∃ reqLine restLines mm uu vv, splitlines data = reqLine :: restLines ∧
        splitWs reqLine = [mm, uu, vv]) ∧
      (∃ ih, ihdr = some ih ∧ ih ≠ "" ∧ containsSub ":" ih = true)) := by
  refine ⟨rfl, ?_, ?_⟩
  · intro h
    simp [processChunk, processRequestChunk, h]
  · intro out hfwd hne
    cases dir with
    | Response =>
      simp [processChunk] at hfwd
      exact absurd hfwd.symm hne
    | Request =>
      by_cases hm : containsSub "HTTP" data = true
      · obtain ⟨reqLine, restLines, hl⟩ :=
          List.exists_cons_of_ne_nil (splitlines_ne_nil_of_marker hm)
        simp only [processChunk] at hfwd
        rw [processRequestChunk, if_pos hm] at hfwd
        simp only [hl] at hfwd
        rcases hws : splitWs reqLine with _ | ⟨mm, _ | ⟨uu, _ | ⟨vv, _ | ⟨dd, tl⟩⟩⟩⟩ <;>
          simp only [hws] at hfwd
        · simp at hfwd; exact absurd hfwd.symm hne
        · simp at hfwd; exact absurd hfwd.symm hne
        · simp at hfwd; exact absurd hfwd.symm hne
        · by_cases hb : blockTriggers bu uu = true
          · simp [hb] at hfwd
          · cases ihdr with
            | none => simp [hb] at hfwd; exact absurd hfwd.symm hne
            | some ih =>
              by_cases hs0 : ih = ""
              · simp [hb, hs0] at hfwd; exact absurd hfwd.symm hne
              · by_cases hsc : containsSub ":" ih = true
                · exact ⟨rfl, hm, ⟨reqLine, restLines, mm, uu, vv, hl, hws⟩,
                    ⟨ih, rfl, hs0, hsc⟩⟩
                · simp [hb, hs0, hsc] at hfwd; exact absurd hfwd.symm hne
        · simp at hfwd; exact absurd hfwd.symm hne
      · rw [Bool.not_eq_true] at hm
        simp [processChunk, processRequestChunk, hm] at hfwd
        exact absurd hfwd.symm hne

/-- Witness for C1: the mutated forward of an injected GET request
satisfies the mutation conditions of the third conjunct. -/
theorem c1_forwarding_byte_preserving_witness :
    Direction.Request = Direction.Request ∧
    containsSub "HTTP" "GET /a HTTP/1.1\r\nHost: x\r\n\r\n" = true ∧
    (∃ reqLine restLines mm uu vv,
      splitlines "GET /a HTTP/1.1\r\nHost: x\r\n\r\n" = reqLine :: restLines ∧
      splitWs reqLine = [mm, uu, vv]) ∧
    (∃ ih, (some "X-Proxy: true" : Option String) = some ih ∧ ih ≠ "" ∧
      containsSub ":" ih = true) :=
  (c1_forwarding_byte_preserving .Request none (some "X-Proxy: true")
      "GET /a HTTP/1.1\r\nHost: x\r\n\r\n").2.2
    "GET /a HTTP/1.1\r\nX-Proxy: true\r\nHost: x\r\n\r\n\r\n" (by decide) (by decide)

/--
Claim C3 counterexample: with inject header `X-Proxy: true` configured and
the chunk `GET / HTTP/1.1\n` (a parsing request line but no header line),
injection is skipped with a warning — yet the forwarded bytes differ from
the received chunk (CRLF re-encoding plus terminator), so the original
claim's "the message is not altered" is false even though no header was
inserted.
-/
theorem c3_skip_still_alters_counterexample :
    (processRequestChunk none (some "X-Proxy: true") "GET / HTTP/1.1\n").effect =
      .forwardTo "GET / HTTP/1.1\r\n\r\n" ∧
    (processRequestChunk none (some "X-Proxy: true") "GET / HTTP/1.1\n").injectWarn =
      true ∧
    "GET / HTTP/1.1\r\n\r\n" ≠ "GET / HTTP/1.1\n" ∧
    containsSub "X-Proxy" "GET / HTTP/1.1\r\n\r\n" = false :=
  ⟨by decide, by decide, by decide, by decide⟩

/--
Claim C3 as amended: when an inject header (non-empty, containing a colon)
is configured and the request line parses (and the block policy does not
fire), the header is inserted as a new line immediately after the request
line if and only if the line following the request line exists and
contains a colon; on injection the upstream receives the original request
line, then the injected header line, then the remaining original lines,
all rejoined with CRLF and terminated by CRLF-CRLF; otherwise injection is
skipped with a warning and no header is inserted, but the chunk is still
re-encoded the same way, so the forwarded bytes may differ from the
received ones.
-/
theorem c3_injection_amended (bu : Option String) (s data reqLine : String)
    (restLines : List String) (m u v : String)
    (hm : containsSub "HTTP" data = true)
    (hl : splitlines data = reqLine :: restLines)
    (hw : splitWs reqLine = [m, u, v])
    (hnb : blockTriggers bu u = false)
    (hs0 : s ≠ "")
    (hsc : containsSub ":" s = true) :
    (hasHeaderAfterRequestLine restLines = true →
      processRequestChunk bu (some s) data =
        { effect := .forwardTo
            (joinCRLF (reqLine :: injectedHeaderLine s :: restLines) ++ crlfCrlf),
          counted := some u, parseWarn := false, injectWarn := false }) ∧
    (hasHeaderAfterRequestLine restLines = false →
      processRequestChunk bu (some s) data =
        { effect := .forwardTo (joinCRLF (reqLine :: restLines) ++ crlfCrlf),
          counted := some u, parseWarn := false, injectWarn := true }) := by
  constructor <;> intro hh <;>
    (rw [processRequestChunk, if_pos hm]; simp only [hl, hw];
     simp [hnb, hs0, hsc, hh])

/-- Witness for C3 (amended) at the spec's Scenario C input. -/
theorem c3_injection_amended_witness :
    processRequestChunk none (some "X-Proxy: true") "GET / HTTP/1.1\r\nHost: x\r\n\r\n" =
      { effect := .forwardTo
          (joinCRLF ("GET / HTTP/1.1" :: injectedHeaderLine "X-Proxy: true" ::
            ["Host: x", ""]) ++ crlfCrlf),
        counted := some "/", parseWarn := false, injectWarn := false } :=
  (c3_injection_amended none "X-Proxy: true" "GET / HTTP/1.1\r\nHost: x\r\n\r\n"
    "GET / HTTP/1.1" ["Host: x", ""] "GET" "/" "HTTP/1.1"
    (by decide) (by decide) (by decide) (by decide) (by decide) (by decide)).1
    (by decide)

/--
Claim C10: whenever an inject header (non-empty, with a colon) is
configured and the request line of a marker-containing Request chunk
parses (and the block policy does not fire), the forwarded chunk is the
re-encoding — lines rejoined with CRLF and suffixed with a CRLF-CRLF
terminator — even when the injection itself is skipped, in which case the
line list is the original one; the closed second conjunct exhibits a skip
where the forwarded bytes differ from the received bytes with no header
inserted.
-/
theorem c10_reencoding_on_inject :
    (∀ (bu : Option String) (s data reqLine : String) (restLines : List String)
        (m u v : String),
      containsSub "HTTP" data = true →
      splitlines data = reqLine :: restLines →
      splitWs reqLine = [m, u, v] →
      blockTriggers bu u = false →
      s ≠ "" →
      containsSub ":" s = true →
      ∃ ls, (processRequestChunk bu (some s) data).effect =
          .forwardTo (joinCRLF ls ++ crlfCrlf) ∧
        (hasHeaderAfterRequestLine restLines = false → ls = reqLine :: restLines)) ∧
    (processRequestChunk none (some "X-P: 1") "POST /y HTTP/1.0\n" =
      { effect := .forwardTo "POST /y HTTP/1.0\r\n\r\n", counted := some "/y",
        parseWarn := false, injectWarn := true } ∧
    "POST /y HTTP/1.0\r\n\r\n" ≠ "POST /y HTTP/1.0\n") := by
  constructor
  · intro bu s data reqLine restLines m u v hm hl hw hnb hs0 hsc
    by_cases hh : hasHeaderAfterRequestLine restLines = true
    · refine ⟨reqLine :: injectedHeaderLine s :: restLines, ?_, ?_⟩
      · rw [processRequestChunk, if_pos hm]; simp only [hl, hw]
        simp [hnb, hs0, hsc, hh]
      · intro hcontra; exact absurd (hcontra ▸ hh) (by decide)
    · have hh' : hasHeaderAfterRequestLine restLines = false :=
        Bool.eq_false_iff.mpr hh
      refine ⟨reqLine :: restLines, ?_, fun _ => rfl⟩
      rw [processRequestChunk, if_pos hm]; simp only [hl, hw]
      simp [hnb, hs0, hsc, hh']
  · exact ⟨by decide, by decide⟩

/-- Witness for C10: a header-less request chunk is re-encoded without any
injected line. -/
theorem c10_reencoding_on_inject_witness :
    ∃ ls, (processRequestChunk none (some "X-P: 1") "GET /w HTTP/1.0\nplain\n").effect =
        .forwardTo (joinCRLF ls ++ crlfCrlf) ∧
      (hasHeaderAfterRequestLine ["plain"] = false →
        ls = "GET /w HTTP/1.0" :: ["plain"]) :=
  c10_reencoding_on_inject.1 none "X-P: 1" "GET /w HTTP/1.0\nplain\n"
    "GET /w HTTP/1.0" ["plain"] "GET" "/w" "HTTP/1.0"
    (by decide) (by decide) (by decide) (by decide) (by decide) (by decide)

end LightLinks
